import Mathlib

/-!
Shallow embedding of the message-routing bot (intent classification,
moderation gate, attachment extraction, code-review parsing, cited search
formatting, and source-control wrappers), together with theorems checking
the natural-language specification against this embedding.

Texts are modelled as lists of characters; external collaborators (the
hosted moderation endpoint, the network download, the source-control
client, the per-format file parsers) are modelled as oracle parameters,
since the repository treats them as opaque services.
-/

/-- Character-list texts, mirroring the scripts that operate on strings. -/
abbrev Str := List Char

/-- Convert a Lean string literal to the character-list representation. -/
def str (s : String) : Str := s.data

/-- Lower-casing of a text, as the scripts call toLowerCase. -/
def lowerStr (s : Str) : Str := s.map Char.toLower

/-- Substring test: does the pattern occur contiguously in the text? -/
def containsSub (pat : Str) : Str → Bool
  | [] => pat.isEmpty
  | c :: t => pat.isPrefixOf (c :: t) || containsSub pat t

/-- Word characters of the regex escape for word boundaries. -/
def isWordChar (c : Char) : Bool :=
  ('a' ≤ c && c ≤ 'z') || ('A' ≤ c && c ≤ 'Z') || ('0' ≤ c && c ≤ '9') || c == '_'

/-- Match a word at the current position, requiring a word boundary right
after it (end of text or a non-word character). -/
def matchWordHere : Str → Str → Bool
  | [], [] => true
  | [], c :: _ => !isWordChar c
  | _ :: _, [] => false
  | w :: ws, c :: cs => w == c && matchWordHere ws cs

/-- Scan for a whole-word occurrence; the boolean argument records whether
the character immediately before the current position is a word character. -/
def containsWordFrom (w : Str) : Bool → Str → Bool
  | prevWord, [] => !prevWord && matchWordHere w []
  | prevWord, c :: t =>
    (!prevWord && matchWordHere w (c :: t)) || containsWordFrom w (isWordChar c) t

/-- Whole-word containment, modelling a pattern of the form boundary,
word, boundary. -/
def containsWord (w s : Str) : Bool := containsWordFrom w false s

/-- Suffix test on texts. -/
def endsWithStr (suf s : Str) : Bool := suf.reverse.isPrefixOf s.reverse

/-- Whitespace characters recognized by the regex whitespace class and by
trim: space, tab, newline, carriage return, vertical tab, form feed. -/
def isJsSpace (c : Char) : Bool :=
  c == ' ' || c == '\t' || c == '\n' || c == '\r' || c == Char.ofNat 11 || c == Char.ofNat 12

/-- Trim whitespace from both ends of a text. -/
def trimStr (s : Str) : Str :=
  ((s.dropWhile isJsSpace).reverse.dropWhile isJsSpace).reverse

/-- Join a list of texts with a separator, as the array join method does. -/
def joinSep (sep : Str) : List Str → Str
  | [] => []
  | [x] => x
  | x :: y :: rest => x ++ sep ++ joinSep sep (y :: rest)

/-- Decimal rendering of a number, for template-literal interpolation. -/
def natToStr (n : Nat) : Str := Nat.toDigits 10 n

/-! ## Moderation service (moderateText) -/

/-- Configuration fields read by the moderation service. -/
structure ModConfig where
  enableModeration : Bool
  openAIModerationApiKey : Option Str

/-- Outcome of the one call to the hosted moderation endpoint: the request
throws, or it returns a flagged verdict with a category map. -/
inductive HostedOutcome where
  | failure : HostedOutcome
  | ok : Bool → List (String × Bool) → HostedOutcome

/-- Result record of the moderation service. -/
structure ModerationResult where
  flagged : Bool
  reasons : List String
  deriving DecidableEq

/-- The static banned-keyword list of the moderation service. -/
def bannedKeywords : List Str := [str "hate", str "terror", str "bomb"]

/-- Truthiness of an optional string: absent and empty are both falsy. -/
def jsTruthyStr : Option Str → Bool
  | none => false
  | some s => !s.isEmpty

/-- The moderation service. Returns the moderation result paired with a
flag recording whether the hosted moderation endpoint was consulted. -/
def moderateText (cfg : ModConfig) (hosted : HostedOutcome) (text : Str) :
    ModerationResult × Bool :=
  if !cfg.enableModeration then ({ flagged := false, reasons := [] }, false)
  else
    let triggered := bannedKeywords.filter fun w => containsSub w (lowerStr text)
    if triggered.length ≠ 0 then ({ flagged := true, reasons := ["keyword"] }, false)
    else if jsTruthyStr cfg.openAIModerationApiKey then
      match hosted with
      | .failure => ({ flagged := false, reasons := [] }, true)
      | .ok f cats =>
        if f then
          ({ flagged := true, reasons := (cats.filter fun kv => kv.2).map fun kv => kv.1 }, true)
        else ({ flagged := false, reasons := [] }, true)
    else ({ flagged := false, reasons := [] }, false)

/-! ## Intent classifier (detectIntent) -/

/-- Rule 1: text starts with the word search followed by a boundary. -/
def rule1 (t : Str) : Bool := matchWordHere (str "search") t

/-- Rule 2: text contains card as a whole word, or starts with generate card. -/
def rule2 (t : Str) : Bool :=
  containsWord (str "card") t || (str "generate card").isPrefixOf t

/-- Rule 3: text contains summary as a whole word, or contains summarize. -/
def rule3 (t : Str) : Bool :=
  containsWord (str "summary") t || containsSub (str "summarize") t

/-- Rule 4: text contains help or commands anywhere. -/
def rule4 (t : Str) : Bool :=
  containsSub (str "help") t || containsSub (str "commands") t

/-- Rule 5: text starts with review code, or contains code review anywhere. -/
def rule5 (t : Str) : Bool :=
  (str "review code").isPrefixOf t || containsSub (str "code review") t

/-- Rule 6: text starts with analyze, or contains analysis anywhere. -/
def rule6 (t : Str) : Bool :=
  (str "analyze").isPrefixOf t || containsSub (str "analysis") t

/-- Rule 7: text starts with generate code, or contains create code anywhere. -/
def rule7 (t : Str) : Bool :=
  (str "generate code").isPrefixOf t || containsSub (str "create code") t

/-- Rule 8: text starts with git status, or contains status anywhere (the
start-of-text anchor applies only to the first regex alternative). -/
def rule8 (t : Str) : Bool :=
  (str "git status").isPrefixOf t || containsSub (str "status") t

/-- Rule 9: text starts with commit. -/
def rule9 (t : Str) : Bool := (str "commit").isPrefixOf t

/-- Rule 10: text starts with branch. -/
def rule10 (t : Str) : Bool := (str "branch").isPrefixOf t

/-- Rule 11: text starts with project, or contains dashboard anywhere. -/
def rule11 (t : Str) : Bool :=
  (str "project").isPrefixOf t || containsSub (str "dashboard") t

/-- Rule 12: text starts with deploy, or contains deployment anywhere. -/
def rule12 (t : Str) : Bool :=
  (str "deploy").isPrefixOf t || containsSub (str "deployment") t

/-- Rule 13: text starts with env, or contains environment anywhere. -/
def rule13 (t : Str) : Bool :=
  (str "env").isPrefixOf t || containsSub (str "environment") t

/-- The intent classifier: lower-case the message, then test the ordered
regex rules, returning the label of the first rule that matches. -/
def detectIntent (text : Str) : String :=
  let t := lowerStr text
  if rule1 t then "search"
  else if rule2 t then "card"
  else if rule3 t then "summarize"
  else if rule4 t then "help"
  else if rule5 t then "code_review"
  else if rule6 t then "code_analysis"
  else if rule7 t then "code_generate"
  else if rule8 t then "git_status"
  else if rule9 t then "git_commit"
  else if rule10 t then "git_branch"
  else if rule11 t then "project_info"
  else if rule12 t then "deployment"
  else if rule13 t then "environment"
  else "chat"

/-- First-match-wins evaluation of an ordered list of predicate/label
pairs, as the specification describes the classifier contract. -/
def firstMatchLabel : List ((Str → Bool) × String) → String → Str → String
  | [], deflt, _ => deflt
  | (p, label) :: rest, deflt, t => if p t then label else firstMatchLabel rest deflt t

/-- The ordered rule table of the intent classifier. -/
def intentRules : List ((Str → Bool) × String) :=
  [(rule1, "search"), (rule2, "card"), (rule3, "summarize"), (rule4, "help"),
   (rule5, "code_review"), (rule6, "code_analysis"), (rule7, "code_generate"),
   (rule8, "git_status"), (rule9, "git_commit"), (rule10, "git_branch"),
   (rule11, "project_info"), (rule12, "deployment"), (rule13, "environment")]

/-! ## Attachment extraction (extractTextFromAttachment, processAttachments) -/

/-- An incoming attachment: both the display name and the content URL are
optional in the transport schema. -/
structure Attachment where
  name : Option Str
  contentUrl : Option Str

/-- Oracles for the external effects of one attachment extraction: the
download plus temp-file write, and the three format-specific parsers, each
of which can throw. -/
structure ExtDeps where
  download : Except Unit Unit
  pdfText : Except Unit Str
  csvText : Except Unit Str
  fileText : Except Unit Str

/-- Marker returned for attachments whose extension is not handled. -/
def unsupportedMarker : Str :=
  str "[Unsupported file type – only PDF, CSV, TXT, MD processed]"

/-- Template-literal interpolation of the attachment name: an absent name
renders as the text undefined. -/
def nameForHeader : Option Str → Str
  | some n => n
  | none => str "undefined"

/-- Extract the text of one attachment: with no content URL return the
empty text at once; otherwise download, dispatch on the lower-cased name
suffix to a parser (or the unsupported marker), and prefix the file header. -/
def extractTextFromAttachment (att : Attachment) (deps : ExtDeps) : Except Unit Str :=
  match att.contentUrl with
  | none => Except.ok []
  | some _ =>
    match deps.download with
    | Except.error e => Except.error e
    | Except.ok _ =>
      let lowName := lowerStr (att.name.getD [])
      let content :=
        if endsWithStr (str ".pdf") lowName then deps.pdfText
        else if endsWithStr (str ".csv") lowName then deps.csvText
        else if endsWithStr (str ".txt") lowName || endsWithStr (str ".md") lowName then
          deps.fileText
        else Except.ok unsupportedMarker
      match content with
      | Except.error e => Except.error e
      | Except.ok c => Except.ok (str "File: " ++ nameForHeader att.name ++ str "\n" ++ c)

/-- Loop body of processAttachments for one attachment: the extracted text
capped at 4000 characters, or the fixed error marker if extraction threw. -/
def attachmentOutput (att : Attachment) (deps : ExtDeps) : Str :=
  match extractTextFromAttachment att deps with
  | Except.ok text => text.take 4000
  | Except.error _ => str "[Error processing attachment]"

/-- Process every attachment of a message, collecting the per-attachment
outputs in order. -/
def processAttachments (atts : List Attachment) (deps : Attachment → ExtDeps) : List Str :=
  atts.map fun att => attachmentOutput att (deps att)

/-- The reply the dispatcher sends when a message carries attachments. -/
def attachmentReply (atts : List Attachment) (deps : Attachment → ExtDeps) : Str :=
  let extracted := processAttachments atts deps
  str "Processed " ++ natToStr extracted.length ++ str " file(s). Content snippet(s):\n\n"
    ++ joinSep (str "\n---\n") extracted

/-! ## Code-review reply parsing (parseCodeReviewResponse) -/

/-- Split a text on newline characters, keeping empty segments, as the
string split method does. -/
def splitLines : Str → List Str
  | [] => [[]]
  | c :: t =>
    if c == '\n' then [] :: splitLines t
    else
      match splitLines t with
      | [] => [[c]]
      | l :: ls => (c :: l) :: ls

/-- Decimal digit test. -/
def isDigitChar (c : Char) : Bool := '0' ≤ c && c ≤ '9'

/-- Numeric value of a run of decimal digits. -/
def digitsValue (ds : Str) : Nat := ds.foldl (fun a c => a * 10 + (c.toNat - 48)) 0

/-- After the colon of a score or rating keyword: skip whitespace, then
require at least one digit and take the maximal digit run. -/
def scoreDigits (s : Str) : Option Nat :=
  let rest := s.dropWhile isJsSpace
  let ds := rest.takeWhile isDigitChar
  if ds.isEmpty then none else some (digitsValue ds)

/-- Try the score pattern at the current position: the keyword score or
rating with a colon, case-insensitively, then whitespace and digits. -/
def scoreMatchAt (s : Str) : Option Nat :=
  if (str "score:").isPrefixOf (lowerStr s) then scoreDigits (s.drop 6)
  else if (str "rating:").isPrefixOf (lowerStr s) then scoreDigits (s.drop 7)
  else none

/-- Leftmost match of the score pattern anywhere in the text, as the
string match method finds it. -/
def firstScoreMatch : Str → Option Nat
  | [] => none
  | c :: t =>
    match scoreMatchAt (c :: t) with
    | some n => some n
    | none => firstScoreMatch t

/-- Bullet test of the review parser: first character a dash or asterisk,
second character a whitespace character. -/
def isBulletLine : Str → Bool
  | c1 :: c2 :: _ => (c1 == '-' || c1 == '*') && isJsSpace c2
  | _ => false

/-- The bullet item text: the two matched marker characters removed, then
trimmed. -/
def bulletItem (line : Str) : Str := trimStr (line.drop 2)

/-- Issue test of the review parser: the lower-cased line contains bug,
error, or issue. -/
def isIssueLine (line : Str) : Bool :=
  containsSub (str "bug") (lowerStr line) || containsSub (str "error") (lowerStr line)
    || containsSub (str "issue") (lowerStr line)

/-- Result record of the code-review parser. -/
structure CodeReviewResult where
  summary : Str
  suggestions : List Str
  score : Nat
  issues : List Str
  deriving DecidableEq

/-- Loop body of the bullet classification: a bullet line is pushed onto
the issue list or the suggestion list; other lines are skipped. -/
def bulletStep (acc : List Str × List Str) (line : Str) : List Str × List Str :=
  if isBulletLine line then
    if isIssueLine line then (acc.1 ++ [bulletItem line], acc.2)
    else (acc.1, acc.2 ++ [bulletItem line])
  else acc

/-- Classify every line of the reply into issues and suggestions. -/
def classifyBullets (lines : List Str) : List Str × List Str :=
  lines.foldl bulletStep ([], [])

/-- Parse the free-text code-review reply of the hosted model: extract the
score (default 5), classify bullet lines, and take the first line as the
summary with a fixed default when it is empty. -/
def parseCodeReviewResponse (content : Str) : CodeReviewResult :=
  let lines := splitLines content
  let score := (firstScoreMatch content).getD 5
  let pair := classifyBullets lines
  let firstLine := lines.headD []
  { summary := if firstLine.isEmpty then str "Code reviewed successfully" else firstLine
    suggestions := pair.2
    score := score
    issues := pair.1 }

/-! ## Cited search formatting (formatCitedResponse) -/

/-- One web search result. -/
structure WebSearchResult where
  title : Str
  url : Str
  snippet : Str

/-- The citation line for the result at the given zero-based position. -/
def citationLine (idx : Nat) (r : WebSearchResult) : Str :=
  str "[" ++ natToStr (idx + 1) ++ str "] " ++ r.title ++ str " - " ++ r.url

/-- Append a Sources block to the answer, one citation line per result in
order; with no results the answer is returned unmodified. -/
def formatCitedResponse (answer : Str) (results : List WebSearchResult) : Str :=
  if results.length == 0 then answer
  else
    let citations := joinSep (str "\n") (results.enum.map fun p => citationLine p.1 p.2)
    answer ++ str "\n\nSources:\n" ++ citations

/-- Specification-side description of the Sources block: lines numbered
from the given counter, in the original order of the results. -/
def numberedLines (k : Nat) : List WebSearchResult → List Str
  | [] => []
  | r :: rs =>
    (str "[" ++ natToStr k ++ str "] " ++ r.title ++ str " - " ++ r.url)
      :: numberedLines (k + 1) rs

/-! ## Source-control wrappers (getGitStatus, commitChanges, createBranch) -/

/-- Per-file status record as the source-control client reports it. -/
structure RawFileStatus where
  path : Str
  working_dir : Char
  index : Char

/-- Status record as the source-control client reports it. -/
structure RawStatus where
  current : Str
  files : List RawFileStatus
  ahead : Nat
  behind : Nat

/-- Per-file entry of the wrapped status result. -/
structure GitFile where
  path : Str
  status : Str
  staged : Bool
  deriving DecidableEq

/-- The wrapped status result. -/
structure GitStatus where
  current : Str
  files : List GitFile
  ahead : Nat
  behind : Nat
  deriving DecidableEq

/-- Oracle for the source-control client: each operation either succeeds
or throws. -/
structure GitClient where
  status : Except Unit RawStatus
  add : Option (List Str) → Except Unit Unit
  commit : Str → Except Unit Unit
  checkoutLocalBranch : Str → Except Unit Unit

/-- Wrapped status operation: map the client record on success, and return
the fixed default record when the client throws. -/
def getGitStatus (git : GitClient) : GitStatus :=
  match git.status with
  | Except.ok s =>
    { current := s.current
      files := s.files.map fun f =>
        { path := f.path
          status := [f.working_dir, f.index]
          staged := f.index ≠ ' ' && f.index ≠ '?' }
      ahead := s.ahead
      behind := s.behind }
  | Except.error _ => { current := str "unknown", files := [], ahead := 0, behind := 0 }

/-- The staged-then-commit sequence inside the commit wrapper: stage the
given files when a non-empty list is supplied, else stage everything, then
commit with the message. -/
def commitSteps (git : GitClient) (message : Str) (files : Option (List Str)) :
    Except Unit Unit := do
  match files with
  | some fs => if 0 < fs.length then git.add (some fs) else git.add none
  | none => git.add none
  git.commit message

/-- Wrapped commit operation: true on success, false when any step throws. -/
def commitChanges (git : GitClient) (message : Str) (files : Option (List Str)) : Bool :=
  match commitSteps git message files with
  | Except.ok _ => true
  | Except.error _ => false

/-- Wrapped branch creation: true on success, false when the client throws. -/
def createBranch (git : GitClient) (branchName : Str) : Bool :=
  match git.checkoutLocalBranch branchName with
  | Except.ok _ => true
  | Except.error _ => false

/-! ## Helper lemmas -/

/-- A filter keeping some member of the list has non-zero length. -/
theorem filter_length_ne_zero_of_mem {α : Type} (p : α → Bool) (l : List α) (a : α)
    (ha : a ∈ l) (hp : p a = true) : (l.filter p).length ≠ 0 := by
  have hmem : a ∈ l.filter p := List.mem_filter.2 ⟨ha, hp⟩
  intro h0
  rw [List.length_eq_zero] at h0
  rw [h0] at hmem
  exact (List.not_mem_nil a) hmem

/-- Folding the bullet-classification step appends the classified bullet
items of the lines to the two accumulators. -/
theorem foldl_bulletStep (lines : List Str) (acc : List Str × List Str) :
    lines.foldl bulletStep acc
      = (acc.1 ++ (lines.filter fun l => isBulletLine l && isIssueLine l).map bulletItem,
         acc.2 ++ (lines.filter fun l => isBulletLine l && !isIssueLine l).map bulletItem) := by
  induction lines generalizing acc with
  | nil => simp
  | cons line rest ih =>
    rw [List.foldl_cons, ih]
    cases hb : isBulletLine line with
    | false => simp [bulletStep, hb, List.filter_cons]
    | true =>
      cases hi : isIssueLine line with
      | false => simp [bulletStep, hb, hi, List.filter_cons]
      | true => simp [bulletStep, hb, hi, List.filter_cons]

/-- The bullet classification is the filtered and mapped line list. -/
theorem classifyBullets_eq (lines : List Str) :
    classifyBullets lines
      = ((lines.filter fun l => isBulletLine l && isIssueLine l).map bulletItem,
         (lines.filter fun l => isBulletLine l && !isIssueLine l).map bulletItem) := by
  have h := foldl_bulletStep lines ([], [])
  simpa [classifyBullets] using h

/-- Splitting a filter along a second predicate preserves total length. -/
theorem filter_split_length {α : Type} (p q : α → Bool) (l : List α) :
    (l.filter fun x => p x && q x).length + (l.filter fun x => p x && !q x).length
      = (l.filter p).length := by
  induction l with
  | nil => simp
  | cons a t ih =>
    cases hp : p a <;> cases hq : q a <;> simp [List.filter_cons, hp, hq] <;> omega

/-- Mapping the citation formatter over an enumerated result list yields
the one-based numbered lines. -/
theorem enumFrom_citation (k : Nat) (rs : List WebSearchResult) :
    (List.enumFrom k rs).map (fun p => citationLine p.1 p.2) = numberedLines (k + 1) rs := by
  induction rs generalizing k with
  | nil => simp [numberedLines]
  | cons r rest ih =>
    simp only [List.enumFrom, List.map_cons, numberedLines, ih]
    rfl

/-! ## Claim theorems -/

/-- C1: with moderation enabled, every text containing a banned keyword
(hate, terror, bomb) as a case-insensitive substring is flagged with the
single reason keyword, regardless of the hosted-service configuration and
of the hosted outcome, and the hosted endpoint is not consulted. -/
theorem moderation_keyword_short_circuit (cfg : ModConfig) (hosted : HostedOutcome)
    (text : Str) (hEn : cfg.enableModeration = true)
    (hKw : containsSub (str "hate") (lowerStr text) = true
         ∨ containsSub (str "terror") (lowerStr text) = true
         ∨ containsSub (str "bomb") (lowerStr text) = true) :
    moderateText cfg hosted text = ({ flagged := true, reasons := ["keyword"] }, false) := by
  have hw : ∃ w, w ∈ bannedKeywords ∧ containsSub w (lowerStr text) = true := by
    rcases hKw with h | h | h
    · exact ⟨str "hate", by simp [bannedKeywords], h⟩
    · exact ⟨str "terror", by simp [bannedKeywords], h⟩
    · exact ⟨str "bomb", by simp [bannedKeywords], h⟩
  rcases hw with ⟨w, hmem, hcont⟩
  have hne : (bannedKeywords.filter fun w => containsSub w (lowerStr text)).length ≠ 0 :=
    filter_length_ne_zero_of_mem _ _ w hmem hcont
  simp [moderateText, hEn, hne]

/-- C1 witness: a concrete flagged text with a hosted credential present
and a hosted outcome that would disagree. -/
theorem moderation_keyword_short_circuit_witness :
    moderateText { enableModeration := true, openAIModerationApiKey := some (str "k") }
      (HostedOutcome.ok true [("violence", true)]) (str "I hate Mondays")
      = ({ flagged := true, reasons := ["keyword"] }, false) :=
  moderation_keyword_short_circuit _ _ _ rfl (Or.inl (by decide))

/-- C2: the intent classifier equals first-match-wins evaluation of the
ordered rule table, depends only on the lower-cased text, and classifies
the text search for card games as search even though the card rule also
matches it. -/
theorem intent_first_match_contract :
    (∀ text : Str, detectIntent text = firstMatchLabel intentRules "chat" (lowerStr text))
    ∧ (∀ s t : Str, lowerStr s = lowerStr t → detectIntent s = detectIntent t)
    ∧ detectIntent (str "search for card games") = "search"
    ∧ rule1 (lowerStr (str "search for card games")) = true
    ∧ rule2 (lowerStr (str "search for card games")) = true := by
  refine ⟨fun text => rfl, fun s t h => ?_, by decide, by decide, by decide⟩
  simp only [detectIntent, h]

/-- C2 witness: case-insensitivity applied at a concrete pair of texts. -/
theorem intent_first_match_contract_witness :
    detectIntent (str "SEARCH for card games") = detectIntent (str "search for card games")
    ∧ detectIntent (str "SEARCH for card games") = "search" := by
  have h := intent_first_match_contract.2.1 (str "SEARCH for card games")
    (str "search for card games") (by decide)
  exact ⟨h, h.trans intent_first_match_contract.2.2.1⟩

/-- C3 counterexample: the text my status leaves rules 1 through 7
unmatched and classifies as git_status although it neither starts with
git status nor starts with status. -/
theorem git_status_prefix_counterexample :
    rule1 (lowerStr (str "my status")) = false
    ∧ rule2 (lowerStr (str "my status")) = false
    ∧ rule3 (lowerStr (str "my status")) = false
    ∧ rule4 (lowerStr (str "my status")) = false
    ∧ rule5 (lowerStr (str "my status")) = false
    ∧ rule6 (lowerStr (str "my status")) = false
    ∧ rule7 (lowerStr (str "my status")) = false
    ∧ detectIntent (str "my status") = "git_status"
    ∧ (str "git status").isPrefixOf (lowerStr (str "my status")) = false
    ∧ (str "status").isPrefixOf (lowerStr (str "my status")) = false := by
  decide

/-- C3 amended: when rules 1 through 7 do not match, the classifier
returns git_status exactly when the lower-cased text starts with
git status or contains status anywhere as a substring. -/
theorem git_status_rule_characterization (text : Str)
    (h1 : rule1 (lowerStr text) = false) (h2 : rule2 (lowerStr text) = false)
    (h3 : rule3 (lowerStr text) = false) (h4 : rule4 (lowerStr text) = false)
    (h5 : rule5 (lowerStr text) = false) (h6 : rule6 (lowerStr text) = false)
    (h7 : rule7 (lowerStr text) = false) :
    detectIntent text = "git_status"
      ↔ ((str "git status").isPrefixOf (lowerStr text) = true
         ∨ containsSub (str "status") (lowerStr text) = true) := by
  have key : detectIntent text = "git_status" ↔ rule8 (lowerStr text) = true := by
    cases h8 : rule8 (lowerStr text) with
    | false =>
      simp only [detectIntent, h1, h2, h3, h4, h5, h6, h7, h8, if_false, Bool.false_eq_true]
      constructor
      · intro hd
        exfalso
        revert hd
        split_ifs <;> decide
      · intro hd
        exact absurd hd (by decide)
    | true =>
      simp [detectIntent, h1, h2, h3, h4, h5, h6, h7, h8]
  rw [key]
  unfold rule8
  simp [Bool.or_eq_true]

/-- C3 witness: the amended characterization applied to the text
git status. -/
theorem git_status_rule_characterization_witness :
    detectIntent (str "git status") = "git_status" :=
  (git_status_rule_characterization (str "git status") (by decide) (by decide) (by decide)
      (by decide) (by decide) (by decide) (by decide)).2 (Or.inl (by decide))

/-- C4: processAttachments yields one output per attachment; every output
has at most 4000 characters; and the output for an attachment whose
extraction succeeds is the extracted text capped at 4000 characters,
exactly 4000 characters when the text is longer, and the unmodified text
otherwise. -/
theorem attachment_truncation (atts : List Attachment) (deps : Attachment → ExtDeps) :
    (processAttachments atts deps).length = atts.length
    ∧ (∀ out ∈ processAttachments atts deps, out.length ≤ 4000)
    ∧ (∀ (i : Nat) (att : Attachment) (text : Str), atts[i]? = some att
        → extractTextFromAttachment att (deps att) = Except.ok text
        → (processAttachments atts deps)[i]? = some (text.take 4000)
          ∧ (4000 < text.length → (text.take 4000).length = 4000)
          ∧ (text.length ≤ 4000 → text.take 4000 = text)) := by
  refine ⟨by simp [processAttachments], ?_, ?_⟩
  · intro out hout
    rcases List.mem_map.1 hout with ⟨att, _, rfl⟩
    unfold attachmentOutput
    cases extractTextFromAttachment att (deps att) with
    | ok text =>
      show (text.take 4000).length ≤ 4000
      rw [List.length_take]
      exact Nat.min_le_left _ _
    | error e =>
      show (str "[Error processing attachment]").length ≤ 4000
      decide
  · intro i att text hget hext
    refine ⟨?_, fun hgt => ?_, fun hle => ?_⟩
    · simp [processAttachments, List.getElem?_map, hget, attachmentOutput, hext]
    · rw [List.length_take]
      omega
    · exact List.take_of_length_le hle

/-- C4 definitions for the witness: an attachment with an unsupported
extension and oracles that succeed. -/
def attBin : Attachment :=
  { name := some (str "notes.bin"), contentUrl := some (str "https://x/notes.bin") }

/-- Extraction oracles for the C4 witness. -/
def depsBin : Attachment → ExtDeps := fun _ =>
  { download := Except.ok (), pdfText := Except.error (), csvText := Except.error ()
    fileText := Except.error () }

/-- C4 witness: the truncation theorem applied to a concrete attachment
whose extraction succeeds with the unsupported-type marker. -/
theorem attachment_truncation_witness :
    (processAttachments [attBin] depsBin)[0]?
      = some ((str "File: notes.bin\n" ++ unsupportedMarker).take 4000) :=
  ((attachment_truncation [attBin] depsBin).2.2 0 attBin
    (str "File: notes.bin\n" ++ unsupportedMarker) rfl rfl).1

/-- C5: the review score is the leftmost score or rating pattern value
parsed with no clamping (a rating of 97 passes through), defaulting to 5
when the pattern is absent. -/
theorem review_score_parsing :
    (∀ content : Str, (parseCodeReviewResponse content).score = (firstScoreMatch content).getD 5)
    ∧ (∀ content n, firstScoreMatch content = some n
        → (parseCodeReviewResponse content).score = n)
    ∧ (∀ content, firstScoreMatch content = none → (parseCodeReviewResponse content).score = 5)
    ∧ (parseCodeReviewResponse (str "Rating: 97")).score = 97
    ∧ (parseCodeReviewResponse (str "Rating: 8")).score = 8
    ∧ (parseCodeReviewResponse (str "The code is fine.\nOverall score: 7 with caveats")).score = 7
    ∧ (parseCodeReviewResponse (str "checked RATING:10 here")).score = 10
    ∧ (parseCodeReviewResponse (str "No numeric verdict given")).score = 5 := by
  refine ⟨fun content => rfl, fun content n h => ?_, fun content h => ?_,
    by decide, by decide, by decide, by decide, by decide⟩
  · simp [parseCodeReviewResponse, h]
  · simp [parseCodeReviewResponse, h]

/-- C5 witness: the leftmost-pattern conjunct applied to a concrete reply. -/
theorem review_score_parsing_witness :
    (parseCodeReviewResponse (str "score: 42 overall")).score = 42 :=
  review_score_parsing.2.1 (str "score: 42 overall") 42 (by decide)

/-- C6 sample reply whose first line is empty and whose bullet line lacks
the whitespace after the marker. -/
def reviewReplySample : Str := str "\nHello\n-bug"

/-- C6 counterexample: on this reply the summary is the fixed default and
not the first non-empty line, and the dash line containing bug is not
classified as an issue. -/
theorem review_summary_counterexample :
    ((splitLines reviewReplySample).filter fun l => !l.isEmpty).headD [] = str "Hello"
    ∧ (parseCodeReviewResponse reviewReplySample).summary = str "Code reviewed successfully"
    ∧ (parseCodeReviewResponse reviewReplySample).summary ≠ str "Hello"
    ∧ (str "-bug") ∈ splitLines reviewReplySample
    ∧ (str "-bug").headD ' ' = '-'
    ∧ containsSub (str "bug") (lowerStr (str "-bug")) = true
    ∧ (parseCodeReviewResponse reviewReplySample).issues = [] := by
  decide

/-- C6 amended: the summary is the first line of the reply when that line
is non-empty and a fixed default otherwise; the lines classified are
exactly those starting with a dash or asterisk followed by a whitespace
character, as issues when the line contains bug, error, or issue
case-insensitively and as suggestions otherwise. -/
theorem review_summary_and_bullets (content : Str) :
    (parseCodeReviewResponse content).summary
        = (if (splitLines content).headD [] = [] then str "Code reviewed successfully"
           else (splitLines content).headD [])
    ∧ (parseCodeReviewResponse content).issues
        = ((splitLines content).filter fun l => isBulletLine l && isIssueLine l).map bulletItem
    ∧ (parseCodeReviewResponse content).suggestions
        = ((splitLines content).filter fun l => isBulletLine l && !isIssueLine l).map bulletItem := by
  have hcl := classifyBullets_eq (splitLines content)
  refine ⟨?_, by simp [parseCodeReviewResponse, hcl], by simp [parseCodeReviewResponse, hcl]⟩
  simp [parseCodeReviewResponse, List.isEmpty_iff]

/-- C7: the source-control wrappers fail soft: a throwing status call
yields the fixed default record, and a throwing commit sequence or branch
checkout yields false. -/
theorem sourcecontrol_fail_soft (git : GitClient) (message : Str)
    (files : Option (List Str)) (branchName : Str) :
    (git.status = Except.error () → getGitStatus git
        = { current := str "unknown", files := [], ahead := 0, behind := 0 })
    ∧ (commitSteps git message files = Except.error ()
        → commitChanges git message files = false)
    ∧ (git.checkoutLocalBranch branchName = Except.error ()
        → createBranch git branchName = false) := by
  refine ⟨fun h => ?_, fun h => ?_, fun h => ?_⟩
  · simp [getGitStatus, h]
  · simp [commitChanges, h]
  · simp [createBranch, h]

/-- A source-control client whose every operation throws. -/
def failingGit : GitClient :=
  { status := Except.error (), add := fun _ => Except.error ()
    commit := fun _ => Except.error (), checkoutLocalBranch := fun _ => Except.error () }

/-- C7 witness: the fail-soft theorem applied to the throwing client. -/
theorem sourcecontrol_fail_soft_witness :
    getGitStatus failingGit = { current := str "unknown", files := [], ahead := 0, behind := 0 }
    ∧ commitChanges failingGit (str "msg") none = false
    ∧ createBranch failingGit (str "feature") = false :=
  ⟨(sourcecontrol_fail_soft failingGit (str "msg") none (str "feature")).1 rfl,
   (sourcecontrol_fail_soft failingGit (str "msg") none (str "feature")).2.1 rfl,
   (sourcecontrol_fail_soft failingGit (str "msg") none (str "feature")).2.2 rfl⟩

/-- C8: with no results the answer is returned unmodified; with results
the answer is followed by a Sources block of lines numbered from 1 in the
original order of the result list. -/
theorem cited_response_format (answer : Str) (results : List WebSearchResult) :
    (results = [] → formatCitedResponse answer results = answer)
    ∧ (results ≠ [] → formatCitedResponse answer results
        = answer ++ str "\n\nSources:\n" ++ joinSep (str "\n") (numberedLines 1 results)) := by
  constructor
  · intro h
    simp [formatCitedResponse, h]
  · intro h
    cases results with
    | nil => exact absurd rfl h
    | cons r rs =>
      simp [formatCitedResponse, List.enum, enumFrom_citation]
      rfl

/-- First concrete search result for the C8 witness. -/
def resA : WebSearchResult :=
  { title := str "Lean", url := str "https://lean-lang.org", snippet := str "s1" }

/-- Second concrete search result for the C8 witness. -/
def resB : WebSearchResult :=
  { title := str "Mathlib", url := str "https://leanprover-community.github.io", snippet := str "s2" }

/-- C8 witness: the format theorem applied to two concrete results. -/
theorem cited_response_format_witness :
    formatCitedResponse (str "Answer.") [resA, resB]
      = str "Answer.\n\nSources:\n[1] Lean - https://lean-lang.org\n[2] Mathlib - https://leanprover-community.github.io" := by
  have h := (cited_response_format (str "Answer.") [resA, resB]).2 (by simp)
  rw [h]
  decide

/-- An attachment with no content URL. -/
def attNoUrl : Attachment := { name := some (str "x.txt"), contentUrl := none }

/-- Extraction oracles used with attachments lacking a content URL. -/
def depsNone : Attachment → ExtDeps := fun _ =>
  { download := Except.ok (), pdfText := Except.ok [], csvText := Except.ok []
    fileText := Except.ok [] }

/-- C9: an attachment with no content URL extracts to the empty text with
no header and no marker, yet the dispatcher counts it in the processed
total and joins its empty output into the reply. -/
theorem missing_url_empty_extraction (att : Attachment) (deps : ExtDeps)
    (atts : List Attachment) (depsF : Attachment → ExtDeps)
    (hurl : att.contentUrl = none) :
    extractTextFromAttachment att deps = Except.ok []
    ∧ (processAttachments atts depsF).length = atts.length
    ∧ (∀ (i : Nat), atts[i]? = some att → (processAttachments atts depsF)[i]? = some [])
    ∧ attachmentReply [attNoUrl, attNoUrl] depsNone
        = str "Processed 2 file(s). Content snippet(s):\n\n\n---\n" := by
  refine ⟨?_, by simp [processAttachments], fun i hi => ?_, by decide⟩
  · simp [extractTextFromAttachment, hurl]
  · simp [processAttachments, List.getElem?_map, hi, attachmentOutput,
      extractTextFromAttachment, hurl]

/-- C9 witness: the extraction conjunct applied to the concrete
attachment with no content URL. -/
theorem missing_url_empty_extraction_witness :
    extractTextFromAttachment attNoUrl (depsNone attNoUrl) = Except.ok [] :=
  (missing_url_empty_extraction attNoUrl (depsNone attNoUrl) [] depsNone rfl).1

/-- C10: the review parser classifies exactly the lines whose first
character is a dash or asterisk and whose second character is whitespace,
each into exactly one of the issue and suggestion lists, so the combined
length of the two lists equals the number of such bullet lines; a dash
with no following whitespace is ignored. -/
theorem review_bullet_partition (content : Str) :
    (parseCodeReviewResponse content).issues.length
        + (parseCodeReviewResponse content).suggestions.length
      = ((splitLines content).filter isBulletLine).length
    ∧ (parseCodeReviewResponse content).issues
        = ((splitLines content).filter fun l => isBulletLine l && isIssueLine l).map bulletItem
    ∧ (parseCodeReviewResponse content).suggestions
        = ((splitLines content).filter fun l => isBulletLine l && !isIssueLine l).map bulletItem
    ∧ parseCodeReviewResponse (str "-x\n- y\n* has issue")
        = { summary := str "-x", suggestions := [str "y"], score := 5
            issues := [str "has issue"] } := by
  have hcl := classifyBullets_eq (splitLines content)
  refine ⟨?_, by simp [parseCodeReviewResponse, hcl],
    by simp [parseCodeReviewResponse, hcl], by decide⟩
  simp only [parseCodeReviewResponse, hcl, List.length_map]
  exact filter_split_length isBulletLine isIssueLine (splitLines content)
